import Mathlib

/-!
Verification of the authenticated request pipeline of a WeChat-Pay client SDK
(`src/async_impl/pay.rs`).  The Rust code is shallowly embedded: pure string
and byte manipulations become Lean functions, the fallible upload path becomes
an `Except`, and the network boundary is represented by returning the request
that would be sent (so "no network call" is "no request value is produced").
Cryptographic primitives from external crates (SHA-256, RSA signing) are
abstracted as function parameters or recorded inputs, since the claims under
study only concern which byte strings are fed into them.
-/

namespace WechatPaySdk

/-- HTTP methods, mirroring the `HttpMethod` enum used by the dispatcher. -/
inductive HttpMethod where
  | GET
  | POST
  | PUT
  | DELETE
  | PATCH
deriving DecidableEq, Repr

/-- Modelled from the spec: the repository's error enum `PayError` is not under
`src/`; its constructors are taken from the uses in `src/async_impl/pay.rs`
(`PayError::WechatError(String)`, `PayError::WeixinNotFound`) together with the
spec's error taxonomy (section 7): transport errors arrive via the
`From<reqwest::Error>` conversion (`reqwestError`) and serialization errors via
`From<serde_json::Error>` (`serdeError`).  Per spec section 4.3, a gateway
("remote rejected") payload reaches the caller through the response
deserialization path, i.e. as a `reqwestError` decode failure. -/
inductive PayError where
  | wechatError (msg : String)
  | weixinNotFound
  | reqwestError (msg : String)
  | serdeError (msg : String)
deriving DecidableEq, Repr

/-- The credential/configuration fields of `WechatPay` read by the code under
study, via the accessors `appid()`, `mch_id()`, `notify_url()`, `base_url()`. -/
structure WechatPay where
  appid : String
  mchId : String
  notifyUrl : String
  baseUrl : String
deriving DecidableEq, Repr

/-- JSON values, modelling `serde_json::Value` (floating-point numbers are not
modelled; the request bodies the pipeline builds use integer amounts). -/
inductive Json where
  | str (s : String)
  | num (n : Int)
  | bool (b : Bool)
  | null
  | arr (xs : List Json)
  | obj (fields : List (String × Json))

/-- Lowercase hexadecimal digit, as produced by serde_json's `\u00XX` escapes. -/
def hexDigit (n : Nat) : Char :=
  if n < 10 then Char.ofNat (48 + n) else Char.ofNat (87 + n)

/-- Escape of a single character inside a JSON string, following serde_json's
serializer: quote, backslash and the named control escapes, `\u00XX` for the
remaining control characters, and everything else emitted unescaped. -/
def escChar (ch : Char) : String :=
  if ch = Char.ofNat 34 then "\\\""
  else if ch = Char.ofNat 92 then "\\\\"
  else if ch = Char.ofNat 8 then "\\b"
  else if ch = Char.ofNat 9 then "\\t"
  else if ch = Char.ofNat 10 then "\\n"
  else if ch = Char.ofNat 12 then "\\f"
  else if ch = Char.ofNat 13 then "\\r"
  else if ch.toNat < 32 then
    "\\u00" ++ String.mk [hexDigit (ch.toNat / 16), hexDigit (ch.toNat % 16)]
  else String.mk [ch]

/-- JSON string-content escaping (serde_json serializer). -/
def jsonEscape (s : String) : String :=
  String.join (s.toList.map escChar)

mutual

/-- Compact serialization of a JSON value, modelling
`serde_json::to_string` / `Value::to_string` (no whitespace). -/
def jsonToString : Json → String
  | .str s => "\"" ++ jsonEscape s ++ "\""
  | .num n => toString n
  | .bool true => "true"
  | .bool false => "false"
  | .null => "null"
  | .arr xs => "[" ++ jsonArrToString xs ++ "]"
  | .obj fs => "\x7b" ++ jsonObjFields fs ++ "\x7d"

/-- Comma-separated serialization of the elements of a JSON array. -/
def jsonArrToString : List Json → String
  | [] => ""
  | [x] => jsonToString x
  | x :: y :: xs => jsonToString x ++ "," ++ jsonArrToString (y :: xs)

/-- Comma-separated serialization of the fields of a JSON object. -/
def jsonObjFields : List (String × Json) → String
  | [] => ""
  | [(k, v)] => "\"" ++ jsonEscape k ++ "\":" ++ jsonToString v
  | (k, v) :: y :: xs =>
      "\"" ++ jsonEscape k ++ "\":" ++ jsonToString v ++ "," ++ jsonObjFields (y :: xs)

end

/-- Serialization of a JSON object map (a `serde_json::Map` rendered by
`serde_json::to_string`). -/
def jsonObjToString (fs : List (String × Json)) : String :=
  jsonToString (.obj fs)

/-- Lexicographic order on character lists by code point; on UTF-8 data this
coincides with Rust's byte-lexicographic `Ord` for `String`. -/
def charListLt : List Char → List Char → Bool
  | [], [] => false
  | [], _ :: _ => true
  | _ :: _, [] => false
  | a :: as, b :: bs =>
      if a.toNat < b.toNat then true
      else if b.toNat < a.toNat then false
      else charListLt as bs

/-- String order used by the `BTreeMap` behind `serde_json::Map`. -/
def strLt (a b : String) : Bool :=
  charListLt a.toList b.toList

/-- Ordered-map insertion, modelling `serde_json::Map::insert` (a `BTreeMap`
keyed by byte-lexicographic string order, replacing an existing binding). -/
def mapInsert (k : String) (v : Json) : List (String × Json) → List (String × Json)
  | [] => [(k, v)]
  | (j, w) :: rest =>
      if strLt k j then (k, v) :: (j, w) :: rest
      else if k = j then (k, v) :: rest
      else (j, w) :: mapInsert k v rest

/-- Map lookup on the association-list representation of a `serde_json::Map`. -/
def mapLookup (k : String) : List (String × Json) → Option Json
  | [] => none
  | (j, w) :: rest => if k = j then some w else mapLookup k rest

/-- The outgoing request assembled by the shared dispatch path `pay`:
`signedBody` is the byte string handed to `build_header` (the signature
engine, whose internals live outside the dispatcher) and `sentBody` is the
byte string attached as the HTTP request body. -/
structure PayRequest where
  method : HttpMethod
  url : String
  signedBody : String
  sentBody : String
deriving DecidableEq, Repr

/-- The object map `pay` serializes: the caller's params object with the
`appid`, `mchid` and `notify_url` fields inserted, in that order. -/
def payFinalMap (w : WechatPay) (params : List (String × Json)) : List (String × Json) :=
  mapInsert "notify_url" (.str w.notifyUrl)
    (mapInsert "mchid" (.str w.mchId)
      (mapInsert "appid" (.str w.appid) params))

/-- The shared dispatch path `WechatPay::pay`.  The caller's params arrive as
an already-parsed JSON object map (`ParamsTrait::to_json` followed by
`serde_json::from_str` in the source; the params types live outside `src/` and
are, per the spec, plain serializable business data).  The signature engine
`build_header` is abstracted: the body string passed to it is recorded as
`signedBody`; the body string sent is recorded as `sentBody`. -/
def pay (w : WechatPay) (method : HttpMethod) (url : String)
    (params : List (String × Json)) : PayRequest :=
  let body := jsonObjToString (payFinalMap w params)
  { method := method
    url := w.baseUrl ++ url
    signedBody := body
    sentBody := body }

/-- The transaction-creation entry points of the SDK. -/
inductive TxVariant where
  | h5
  | app
  | jsapi
  | micro
  | native
deriving DecidableEq, Repr

/-- The target path each transaction-creation variant passes to `pay`,
copied from the `url` constants of `h5_pay`, `app_pay`, `jsapi_pay`,
`micro_pay` and `native_pay`. -/
def txPath : TxVariant → String
  | .h5 => "/v3/pay/transactions/h5"
  | .app => "/v3/pay/transactions/app"
  | .jsapi => "/v3/pay/transactions/jsapi"
  | .micro => "/v3/pay/transactions/jsapi"
  | .native => "/v3/pay/transactions/native"

/-- The extension allow-list `SUPPORTED_EXTENSIONS` (a lazily initialized set
in the source; membership is what matters). -/
def supportedExtensions : List String := ["jpg", "jpeg", "png", "bmp"]

/-- ASCII lowercasing; agrees with Rust's `str::to_lowercase` on ASCII input,
which covers every extension the allow-list can match. -/
def lowerString (s : String) : String :=
  String.mk (s.toList.map Char.toLower)

/-- `is_supported_image`: membership of the lowercased extension in the
allow-list. -/
def isSupportedImage (extension : String) : Bool :=
  supportedExtensions.contains (lowerString extension)

/-- The MIME type chosen for the binary part, from the `match ext` in
`upload_image`; note the match is on the extension exactly as extracted,
not lowercased. -/
def mimeFor (ext : String) : String :=
  if ext = "jpg" ∨ ext = "jpeg" then "image/jpeg"
  else if ext = "png" then "image/png"
  else if ext = "bmp" then "image/bmp"
  else "image/jpeg"

/-- Occurrence of `pat` as a contiguous substring of `l`, modelling Rust's
`str::contains` at the character-list level. -/
def hasSub (pat : List Char) : List Char → Bool
  | [] => pat.isPrefixOf ([] : List Char)
  | x :: xs => pat.isPrefixOf (x :: xs) || hasSub pat xs

/-- Splitting a character list at every occurrence of the separator `c`,
modelling Rust's `str::split` with a single-character pattern (all three splits
under study use one: `'.'` in `upload_image`, `"\n"` and `'"'` in
`get_weixin`). -/
def splitChar (c : Char) : List Char → List (List Char)
  | [] => [[]]
  | x :: xs =>
      if x = c then [] :: splitChar c xs
      else
        match splitChar c xs with
        | [] => [[x]]
        | y :: ys => (x :: y) :: ys

/-- `MAX_SIZE`: the upload size ceiling in bytes. -/
def maxSize : Nat := 2 * 1024 * 1024

/-- `URL`: the media upload endpoint path. -/
def uploadUrl : String := "/v3/merchant/media/upload"

/-- The message of the oversize validation error, from the `format!` string in
`upload_image`. -/
def sizeErrorMsg (n : Nat) : String :=
  "Image size (" ++ toString n ++ " bytes) exceeds the maximum allowed size ("
    ++ toString maxSize ++ " bytes)"

/-- The extension extraction `filename.split('.').last()`: the last
dot-separated segment of the filename.  The split iterator always yields at
least one segment (the whole name when no dot occurs), so the result is never
`none`. -/
def extOf (filename : String) : Option String :=
  ((splitChar (Char.ofNat 46) filename.toList).getLast?).map (fun e => String.mk e)

/-- The metadata document `json!({"filename": filename, "sha256": hash})`
rendered by `Value::to_string` (the `serde_json::Map` is key-sorted, and
"filename" sorts before "sha256", matching insertion order). -/
def metaJson (filename hash : String) : String :=
  jsonObjToString [("filename", .str filename), ("sha256", .str hash)]

/-- The multipart upload request assembled by `upload_image` once both local
preconditions pass: `signedBody` is the string handed to `build_header`,
`metaPart` the body of the "meta" part, and the "file" part carries the raw
bytes with a per-extension MIME type and the original filename. -/
structure UploadRequest where
  method : HttpMethod
  url : String
  signedBody : String
  contentTypeHeader : String
  metaPart : String
  metaPartContentType : String
  fileBytes : List Nat
  fileName : String
  fileMime : String
deriving DecidableEq, Repr

/-- `WechatPay::upload_image`.  Bytes are `List Nat`; the SHA-256 hex digest
(computed by the external `rsa::sha2` crate in the source) is abstracted as the
function parameter `sha256hex`.  An `.error` result means the function returned
before any request was assembled, hence before any signing or network call. -/
def uploadImage (sha256hex : List Nat → String) (w : WechatPay)
    (image : List Nat) (filename : String) : Except PayError UploadRequest :=
  if image.length > maxSize then
    .error (.wechatError (sizeErrorMsg image.length))
  else
    match extOf filename with
    | none => .error (.wechatError "Invalid filename, no extension found")
    | some ext =>
      if isSupportedImage ext = false then
        .error (.wechatError ("Unsupported image format: " ++ ext))
      else
        let hash := sha256hex image
        let meta := metaJson filename hash
        .ok { method := .POST
              url := w.baseUrl ++ uploadUrl
              signedBody := meta
              contentTypeHeader := "multipart/form-data"
              metaPart := meta
              metaPartContentType := "application/json"
              fileBytes := image
              fileName := filename
              fileMime := mimeFor ext }

/-- The URI-scheme needle of the deep-link scrape. -/
def weixinPat : String := "weixin://"

/-- The scrape in `get_weixin` applied to a fetched response body: find the
first newline-separated line containing `weixin://`, then within it the first
quote-delimited segment containing `weixin://`; if no line matches, fail with
`WeixinNotFound`. -/
def getWeixinScrape (text : String) : Except PayError (Option String) :=
  match (splitChar (Char.ofNat 10) text.toList).find?
      (fun line => hasSub weixinPat.toList line) with
  | some line =>
      .ok (((splitChar (Char.ofNat 34) line).find?
              (fun seg => hasSub weixinPat.toList seg)).map
        (fun seg => String.mk seg))
  | none => .error .weixinNotFound

/-- Modelled from the external `http` crate: `HeaderValue::from_str` (reached
through `str::parse` in `get_weixin`) accepts a string iff every byte of its
UTF-8 encoding is in the visible range (at least 32, not 127) or is a tab;
bytes of multi-byte encodings are all at least 0x80 and hence always valid,
so per character the test is: code point at least 128, or tab, or in the
visible ASCII range. -/
def headerValueParse (s : String) : Option String :=
  if s.toList.all
      (fun ch => 128 ≤ ch.toNat || ch.toNat = 9 || (32 ≤ ch.toNat && ch.toNat ≠ 127)) then
    some s
  else none

/-- The outbound fetch issued by `get_weixin`: target URL and headers. -/
structure WeixinFetch where
  url : String
  headers : List (String × String)
deriving DecidableEq, Repr

/-- `WechatPay::get_weixin`.  The response body obtained from the transport is
an input (`responseText`).  The outer `Option` models the `unwrap` on the
referer header parse: `none` is a panic — the function aborts without
producing either a fetch or a `PayError`. -/
def getWeixin (h5Url referer : String) (responseText : String) :
    Option (WeixinFetch × Except PayError (Option String)) :=
  match headerValueParse referer with
  | none => none
  | some v => some ({ url := h5Url, headers := [("referer", v)] },
      getWeixinScrape responseText)

end WechatPaySdk

namespace WechatPaySdk

/-! ## Helper lemmas -/

theorem mapLookup_mapInsert_self (k : String) (v : Json) (m : List (String × Json)) :
    mapLookup k (mapInsert k v m) = some v := by
  induction m with
  | nil => simp [mapInsert, mapLookup]
  | cons hd tl ih =>
    obtain ⟨j, w⟩ := hd
    by_cases h1 : strLt k j = true
    · simp [mapInsert, h1, mapLookup]
    · by_cases h2 : k = j
      · subst h2
        simp [mapInsert, h1, mapLookup]
      · simp [mapInsert, h1, h2, mapLookup, ih]

theorem mapLookup_mapInsert_ne (k j : String) (v : Json) (m : List (String × Json))
    (hkj : k ≠ j) : mapLookup k (mapInsert j v m) = mapLookup k m := by
  induction m with
  | nil => simp [mapInsert, mapLookup, hkj]
  | cons hd tl ih =>
    obtain ⟨a, b⟩ := hd
    by_cases h1 : strLt j a = true
    · simp [mapInsert, h1, mapLookup, hkj]
    · by_cases h2 : j = a
      · subst h2
        simp [mapInsert, h1, mapLookup, hkj]
      · by_cases h3 : k = a
        · subst h3
          simp [mapInsert, h1, h2, mapLookup]
        · simp [mapInsert, h1, h2, mapLookup, h3, ih]

/-! ## Claim theorems -/

/-- C8: in the shared dispatch path `pay`, the body string handed to the
signature engine (`build_header`) is byte-identical to the body string sent in
the HTTP request, for every method, url and params value; and the signed body
is the caller's params JSON object with the `appid`, `mchid` and `notify_url`
fields inserted (each present with the credential value, every other key left
unchanged). -/
theorem pay_signed_body_eq_sent_body (w : WechatPay) (method : HttpMethod)
    (url : String) (params : List (String × Json)) (k : String)
    (h1 : k ≠ "appid") (h2 : k ≠ "mchid") (h3 : k ≠ "notify_url") :
    (pay w method url params).signedBody = (pay w method url params).sentBody ∧
    (pay w method url params).signedBody = jsonObjToString (payFinalMap w params) ∧
    mapLookup "appid" (payFinalMap w params) = some (.str w.appid) ∧
    mapLookup "mchid" (payFinalMap w params) = some (.str w.mchId) ∧
    mapLookup "notify_url" (payFinalMap w params) = some (.str w.notifyUrl) ∧
    mapLookup k (payFinalMap w params) = mapLookup k params := by
  refine ⟨rfl, rfl, ?_, ?_, ?_, ?_⟩
  · rw [payFinalMap, mapLookup_mapInsert_ne _ _ _ _ (by decide),
      mapLookup_mapInsert_ne _ _ _ _ (by decide), mapLookup_mapInsert_self]
  · rw [payFinalMap, mapLookup_mapInsert_ne _ _ _ _ (by decide),
      mapLookup_mapInsert_self]
  · rw [payFinalMap, mapLookup_mapInsert_self]
  · rw [payFinalMap, mapLookup_mapInsert_ne _ _ _ _ h3,
      mapLookup_mapInsert_ne _ _ _ _ h2, mapLookup_mapInsert_ne _ _ _ _ h1]

/-- Witness for C8 at a concrete dispatch. -/
theorem pay_signed_body_eq_sent_body_witness :
    (pay ⟨"APP", "MCH", "NTF", "B"⟩ .POST "/v3/pay/transactions/native"
        [("total", .num 5)]).signedBody =
      (pay ⟨"APP", "MCH", "NTF", "B"⟩ .POST "/v3/pay/transactions/native"
        [("total", .num 5)]).sentBody ∧
    (pay ⟨"APP", "MCH", "NTF", "B"⟩ .POST "/v3/pay/transactions/native"
        [("total", .num 5)]).signedBody =
      jsonObjToString (payFinalMap ⟨"APP", "MCH", "NTF", "B"⟩ [("total", .num 5)]) ∧
    mapLookup "appid" (payFinalMap ⟨"APP", "MCH", "NTF", "B"⟩ [("total", .num 5)]) =
      some (.str "APP") ∧
    mapLookup "mchid" (payFinalMap ⟨"APP", "MCH", "NTF", "B"⟩ [("total", .num 5)]) =
      some (.str "MCH") ∧
    mapLookup "notify_url" (payFinalMap ⟨"APP", "MCH", "NTF", "B"⟩ [("total", .num 5)]) =
      some (.str "NTF") ∧
    mapLookup "total" (payFinalMap ⟨"APP", "MCH", "NTF", "B"⟩ [("total", .num 5)]) =
      mapLookup "total" [("total", Json.num 5)] :=
  pay_signed_body_eq_sent_body ⟨"APP", "MCH", "NTF", "B"⟩ .POST
    "/v3/pay/transactions/native" [("total", .num 5)] "total"
    (by decide) (by decide) (by decide)

/-- C5 counterexample: two distinct transaction-creation variants send to the
same path — `micro_pay` posts to the `jsapi` path. -/
theorem txPath_micro_eq_jsapi :
    txPath TxVariant.micro = txPath TxVariant.jsapi ∧
    TxVariant.micro ≠ TxVariant.jsapi :=
  ⟨rfl, by decide⟩

/-- C5 (amended): every transaction-creation variant dispatches to a path
under `/v3/pay/transactions/`; the `h5`, `app`, `jsapi` and `native` variants
have pairwise distinct paths, while `micro_pay` sends to the same path as
`jsapi_pay`. -/
theorem txPath_distinct_except_micro :
    ([TxVariant.h5, TxVariant.app, TxVariant.jsapi, TxVariant.native].map txPath).Nodup ∧
    ([TxVariant.h5, TxVariant.app, TxVariant.jsapi, TxVariant.micro,
        TxVariant.native].map txPath).all
      (fun p => "/v3/pay/transactions/".toList.isPrefixOf p.toList) = true ∧
    txPath TxVariant.micro = txPath TxVariant.jsapi :=
  ⟨by decide, by decide, rfl⟩

/-- C10: when the referer argument is not a valid HTTP header value, the
header parse in `get_weixin` is `unwrap`ped, so the call panics (modelled as
`none`) instead of returning a `PayError`, for every h5_url and every response
the transport could have produced. -/
theorem getWeixin_invalid_referer_panics (h5Url referer text : String)
    (h : headerValueParse referer = none) :
    getWeixin h5Url referer text = none := by
  unfold getWeixin
  rw [h]

/-- Witness for C10: a referer containing a newline is rejected by the header
parse, and the call panics. -/
theorem getWeixin_invalid_referer_panics_witness :
    getWeixin "https://h5.example" "a\nb" "some body" = none :=
  getWeixin_invalid_referer_panics "https://h5.example" "a\nb" "some body" rfl

/-- C6: a response body whose line is `  data-url="weixin://wxpay/abc" other`
makes `get_weixin` return the deep link `weixin://wxpay/abc`, and a body with
no `weixin://` substring makes it return the not-found error. -/
theorem getWeixin_scrape_scenarios :
    getWeixin "https://h5.example" "https://referer.example"
        "  data-url=\"weixin://wxpay/abc\" other" =
      some ({ url := "https://h5.example",
              headers := [("referer", "https://referer.example")] },
        .ok (some "weixin://wxpay/abc")) ∧
    getWeixin "https://h5.example" "https://referer.example"
        "<html>\n<body>nothing here</body>" =
      some ({ url := "https://h5.example",
              headers := [("referer", "https://referer.example")] },
        .error .weixinNotFound) :=
  ⟨rfl, rfl⟩

/-- C1: whenever `upload_image` passes its local preconditions, the metadata
string handed to the signature engine (`build_header`) and the metadata string
transmitted as the `meta` multipart part are byte-identical, and both equal
`metaJson filename (sha256hex image)` — a function of the (bytes, filename)
pair alone, hence identical across repeated calls on the same pair. -/
theorem uploadImage_meta_signed_eq_sent (sha256hex : List Nat → String)
    (w : WechatPay) (image : List Nat) (filename : String) (req : UploadRequest)
    (hok : uploadImage sha256hex w image filename = .ok req) :
    req.signedBody = req.metaPart ∧
    req.metaPart = metaJson filename (sha256hex image) := by
  by_cases hsize : image.length > maxSize
  · simp [uploadImage, hsize] at hok
  · cases hext : extOf filename with
    | none => simp [uploadImage, hsize, hext] at hok
    | some ext =>
      by_cases hsupp : isSupportedImage ext = false
      · simp [uploadImage, hsize, hext, hsupp] at hok
      · simp [uploadImage, hsize, hext, hsupp] at hok
        subst hok
        exact ⟨rfl, rfl⟩

/-- Witness for C1 at a concrete upload. -/
theorem uploadImage_meta_signed_eq_sent_witness :
    (uploadImage (fun _ => "ss") ⟨"wxappid", "mchid9", "https://cb", "https://api"⟩
        [9] "x.bmp").map (fun r => r.signedBody) =
      (uploadImage (fun _ => "ss") ⟨"wxappid", "mchid9", "https://cb", "https://api"⟩
        [9] "x.bmp").map (fun r => r.metaPart) := by
  have h := uploadImage_meta_signed_eq_sent (fun _ => "ss")
    ⟨"wxappid", "mchid9", "https://cb", "https://api"⟩ [9] "x.bmp"
    { method := .POST, url := "https://api" ++ uploadUrl,
      signedBody := metaJson "x.bmp" "ss", contentTypeHeader := "multipart/form-data",
      metaPart := metaJson "x.bmp" "ss", metaPartContentType := "application/json",
      fileBytes := [9], fileName := "x.bmp", fileMime := "image/bmp" } rfl
  exact congrArg Except.ok h.1

/-- C2: a byte sequence of exactly the size ceiling (2*1024*1024 bytes) passes
the size precondition (with a supported extension the upload request is
built), while one byte over makes `upload_image` return the oversize
validation error before any request is assembled, hence before any network
call. -/
theorem uploadImage_size_boundary (sha256hex : List Nat → String) (w : WechatPay)
    (image : List Nat) (filename ext : String) :
    (image.length = maxSize → extOf filename = some ext →
      isSupportedImage ext = true →
      ∃ req, uploadImage sha256hex w image filename = .ok req) ∧
    (image.length = maxSize + 1 →
      uploadImage sha256hex w image filename =
        .error (.wechatError (sizeErrorMsg image.length))) := by
  constructor
  · intro h1 h2 h3
    have hsize : ¬ image.length > maxSize := by omega
    cases hr : uploadImage sha256hex w image filename with
    | error e =>
      rw [uploadImage] at hr
      simp [hsize, h2, h3] at hr
    | ok req => exact ⟨req, rfl⟩
  · intro h1
    have hsize : image.length > maxSize := by omega
    simp [uploadImage, hsize]

/-- Witness for C2 at the two boundary sizes. -/
theorem uploadImage_size_boundary_witness :
    (∃ req, uploadImage (fun _ => "dd") ⟨"a1", "m1", "n1", "https://api"⟩
        (List.replicate maxSize 0) "a.png" = .ok req) ∧
    uploadImage (fun _ => "dd") ⟨"a1", "m1", "n1", "https://api"⟩
        (List.replicate (maxSize + 1) 0) "a.png" =
      .error (.wechatError (sizeErrorMsg (maxSize + 1))) := by
  constructor
  · exact (uploadImage_size_boundary (fun _ => "dd") ⟨"a1", "m1", "n1", "https://api"⟩
      (List.replicate maxSize 0) "a.png" "png").1 (by simp) rfl rfl
  · have h := (uploadImage_size_boundary (fun _ => "dd") ⟨"a1", "m1", "n1", "https://api"⟩
      (List.replicate (maxSize + 1) 0) "a.png" "png").2 (by simp)
    simpa using h

/-- C3 (code evaluated at the failing input): the filename `png` contains no
dot, so it has no extension, yet `upload_image` accepts it — the whole name is
taken as the extension, it passes the allow-list, and the upload request is
built (so signing and the network call proceed).  The source's own
"Invalid filename, no extension found" branch is unreachable, since
`split('.').last()` always yields a segment. -/
theorem uploadImage_dotless_filename_accepted :
    Char.ofNat 46 ∉ "png".toList ∧
    ∃ req, uploadImage (fun _ => "aa") ⟨"app1", "mch1", "ntf1", "https://api"⟩
      [0] "png" = .ok req :=
  ⟨by decide, ⟨_, rfl⟩⟩

/-- C4: for every upload that passes validation, the MIME type of the binary
part is derived from the extracted extension: `image/jpeg` for the exact
spellings `jpg`/`jpeg`, `image/png` for `png`, `image/bmp` for `bmp`, and the
fallback `image/jpeg` for any other spelling — which, the upload having been
accepted, is necessarily an allow-listed extension (case-insensitively) lacking
a precise (case-sensitive) mapping. -/
theorem uploadImage_mime_from_extension (sha256hex : List Nat → String)
    (w : WechatPay) (image : List Nat) (filename ext : String)
    (req : UploadRequest)
    (hok : uploadImage sha256hex w image filename = .ok req)
    (hext : extOf filename = some ext) :
    isSupportedImage ext = true ∧
    ((ext = "jpg" ∨ ext = "jpeg") → req.fileMime = "image/jpeg") ∧
    (ext = "png" → req.fileMime = "image/png") ∧
    (ext = "bmp" → req.fileMime = "image/bmp") ∧
    (ext ≠ "jpg" → ext ≠ "jpeg" → ext ≠ "png" → ext ≠ "bmp" →
      req.fileMime = "image/jpeg") := by
  by_cases hsize : image.length > maxSize
  · simp [uploadImage, hsize] at hok
  · by_cases hsupp : isSupportedImage ext = false
    · simp [uploadImage, hsize, hext, hsupp] at hok
    · simp [uploadImage, hsize, hext, hsupp] at hok
      subst hok
      refine ⟨by revert hsupp; cases isSupportedImage ext <;> simp, ?_, ?_, ?_, ?_⟩
      · rintro (rfl | rfl) <;> rfl
      · rintro rfl; rfl
      · rintro rfl; rfl
      · intro n1 n2 n3 n4
        show mimeFor ext = "image/jpeg"
        simp [mimeFor, n1, n2, n3, n4]

/-- Witness for C4: an uppercase `.PNG` upload is accepted (case-insensitive
allow-list) and carries the fallback MIME type. -/
theorem uploadImage_mime_from_extension_witness :
    isSupportedImage "PNG" = true ∧
    (uploadImage (fun _ => "aa") ⟨"app1", "mch1", "ntf1", "https://api"⟩
        [3] "c.PNG").map (fun r => r.fileMime) = .ok "image/jpeg" := by
  have h := uploadImage_mime_from_extension (fun _ => "aa")
    ⟨"app1", "mch1", "ntf1", "https://api"⟩ [3] "c.PNG" "PNG"
    { method := .POST, url := "https://api" ++ uploadUrl,
      signedBody := metaJson "c.PNG" "aa", contentTypeHeader := "multipart/form-data",
      metaPart := metaJson "c.PNG" "aa", metaPartContentType := "application/json",
      fileBytes := [3], fileName := "c.PNG", fileMime := mimeFor "PNG" } rfl rfl
  exact ⟨h.1, congrArg Except.ok (h.2.2.2.2 (by decide) (by decide) (by decide) (by decide))⟩

/-- C7: every local validation failure of `upload_image` (oversized image, or
unsupported extension) surfaces as the `WechatError` constructor, which is a
different error kind from the transport / remote-rejection constructor
(`reqwestError`, reached both for connectivity failures and for the gateway's
rejection payloads, which fail typed deserialization), from the serialization
constructor (`serdeError`) and from the scrape's `weixinNotFound`. -/
theorem uploadImage_validation_error_kind (sha256hex : List Nat → String)
    (w : WechatPay) (image : List Nat) (filename : String)
    (h : image.length > maxSize ∨
      ∃ ext, extOf filename = some ext ∧ isSupportedImage ext = false) :
    ∃ msg, uploadImage sha256hex w image filename = .error (.wechatError msg) ∧
      (∀ s, PayError.wechatError msg ≠ PayError.reqwestError s) ∧
      (∀ s, PayError.wechatError msg ≠ PayError.serdeError s) ∧
      PayError.wechatError msg ≠ PayError.weixinNotFound := by
  rcases h with hsize | ⟨ext, hext, hsupp⟩
  · refine ⟨sizeErrorMsg image.length, by simp [uploadImage, hsize], ?_, ?_, ?_⟩
    · intro s hc
      cases hc
    · intro s hc
      cases hc
    · intro hc
      cases hc
  · by_cases hsize : image.length > maxSize
    · refine ⟨sizeErrorMsg image.length, by simp [uploadImage, hsize], ?_, ?_, ?_⟩
      · intro s hc
        cases hc
      · intro s hc
        cases hc
      · intro hc
        cases hc
    · refine ⟨"Unsupported image format: " ++ ext,
        by simp [uploadImage, hsize, hext, hsupp], ?_, ?_, ?_⟩
      · intro s hc
        cases hc
      · intro s hc
        cases hc
      · intro hc
        cases hc

/-- Witness for C7 at an oversized upload. -/
theorem uploadImage_validation_error_kind_witness :
    ∃ msg, uploadImage (fun _ => "dd") ⟨"a2", "m2", "n2", "https://api"⟩
        (List.replicate (maxSize + 1) 1) "b.jpg" = .error (.wechatError msg) ∧
      (∀ s, PayError.wechatError msg ≠ PayError.reqwestError s) ∧
      (∀ s, PayError.wechatError msg ≠ PayError.serdeError s) ∧
      PayError.wechatError msg ≠ PayError.weixinNotFound :=
  uploadImage_validation_error_kind (fun _ => "dd") ⟨"a2", "m2", "n2", "https://api"⟩
    (List.replicate (maxSize + 1) 1) "b.jpg" (Or.inl (by simp))

/-! ## Structure of the deep-link scrape -/

theorem splitChar_ne_nil (c : Char) (l : List Char) : splitChar c l ≠ [] := by
  induction l with
  | nil => simp [splitChar]
  | cons x xs ih =>
    simp only [splitChar]
    split
    · simp
    · split
      · simp
      · simp

theorem splitChar_head_of_pre (c : Char) :
    ∀ (pat l : List Char), (∀ a ∈ pat, a ≠ c) → pat <+: l →
      ∃ y ys, splitChar c l = y :: ys ∧ pat <+: y := by
  intro pat
  induction pat with
  | nil =>
    intro l _ _
    cases hsp : splitChar c l with
    | nil => exact absurd hsp (splitChar_ne_nil c l)
    | cons y ys => exact ⟨y, ys, rfl, ⟨y, rfl⟩⟩
  | cons p ps ih =>
    intro l hc hpre
    obtain ⟨t, ht⟩ := hpre
    subst ht
    have hpc : p ≠ c := hc p (List.mem_cons_self p ps)
    have hps : ∀ a ∈ ps, a ≠ c := fun a ha => hc a (List.mem_cons_of_mem p ha)
    obtain ⟨y, ys, hsp, hpy⟩ := ih (ps ++ t) hps ⟨t, rfl⟩
    refine ⟨p :: y, ys, ?_, ?_⟩
    · show splitChar c ((p :: ps) ++ t) = (p :: y) :: ys
      simp only [List.cons_append, splitChar]
      have hsp2 : splitChar c (ps.append t) = y :: ys := hsp
      rw [if_neg hpc, hsp2]
    · obtain ⟨u, hu⟩ := hpy
      exact ⟨u, by simp [hu]⟩

theorem splitChar_seg_of_sub (c : Char) (pat : List Char)
    (hne : pat ≠ []) (hc : ∀ a ∈ pat, a ≠ c) :
    ∀ l, pat <:+: l → ∃ seg, seg ∈ splitChar c l ∧ pat <:+: seg := by
  intro l
  induction l with
  | nil =>
    intro h
    rw [List.infix_nil] at h
    exact absurd h hne
  | cons x xs ih =>
    intro h
    rcases List.infix_cons_iff.mp h with hpre | hinf
    · obtain ⟨y, ys, hsp, hpy⟩ := splitChar_head_of_pre c pat (x :: xs) hc hpre
      refine ⟨y, ?_, ?_⟩
      · rw [hsp]
        exact List.mem_cons_self y ys
      · obtain ⟨u, hu⟩ := hpy
        exact ⟨[], u, by simpa using hu⟩
    · obtain ⟨seg, hmem, hseg⟩ := ih hinf
      by_cases hx : x = c
      · refine ⟨seg, ?_, hseg⟩
        subst hx
        simp only [splitChar, if_pos rfl]
        exact List.mem_cons_of_mem _ hmem
      · cases hsp : splitChar c xs with
        | nil => exact absurd hsp (splitChar_ne_nil c xs)
        | cons y ys =>
          have hexp : splitChar c (x :: xs) = (x :: y) :: ys := by
            simp only [splitChar]
            rw [if_neg hx, hsp]
          rw [hsp] at hmem
          rcases List.mem_cons.mp hmem with hEq | hmem2
          · subst hEq
            refine ⟨x :: seg, ?_, ?_⟩
            · rw [hexp]
              exact List.mem_cons_self _ _
            · obtain ⟨s2, t2, h2⟩ := hseg
              exact ⟨x :: s2, t2, by simp [← h2]⟩
          · refine ⟨seg, ?_, hseg⟩
            rw [hexp]
            exact List.mem_cons_of_mem _ hmem2

theorem hasSub_iff_sub (pat l : List Char) : hasSub pat l = true ↔ pat <:+: l := by
  induction l with
  | nil =>
    simp [hasSub, List.isPrefixOf_iff_prefix]
  | cons x xs ih =>
    simp [hasSub, List.isPrefixOf_iff_prefix, ih, List.infix_cons_iff]

/-- C9: `get_weixin`'s scrape never produces `Ok(None)`: whenever the result
is `Ok`, it carries `Some` deep-link string which itself contains the
`weixin://` needle — any line containing `weixin://` always has a
quote-delimited segment containing it, because the needle contains no quote
and so cannot straddle a quote boundary. -/
theorem getWeixinScrape_ok_isSome (text : String) (r : Option String)
    (h : getWeixinScrape text = .ok r) :
    ∃ s, r = some s ∧ hasSub weixinPat.toList s.toList = true := by
  unfold getWeixinScrape at h
  split at h
  next line hfind =>
    injection h with h
    have hp := List.find?_some hfind
    have hsub : weixinPat.toList <:+: line := (hasSub_iff_sub _ _).mp hp
    obtain ⟨seg, hmem, hseg⟩ :=
      splitChar_seg_of_sub (Char.ofNat 34) weixinPat.toList (by decide) (by decide)
        line hsub
    have hq : hasSub weixinPat.toList seg = true := (hasSub_iff_sub _ _).mpr hseg
    have hsome : (((splitChar (Char.ofNat 34) line).find?
        (fun seg => hasSub weixinPat.toList seg))).isSome :=
      List.find?_isSome.mpr ⟨seg, hmem, hq⟩
    obtain ⟨seg2, hfind2⟩ := Option.isSome_iff_exists.mp hsome
    have hq2 := List.find?_some hfind2
    refine ⟨String.mk seg2, ?_, ?_⟩
    · rw [← h, hfind2]
      rfl
    · exact hq2
  next hfind =>
    exact absurd h (by simp)

/-- Witness for C9 at a concrete body containing a quoted deep link. -/
theorem getWeixinScrape_ok_isSome_witness :
    ∃ s, (some "weixin://a" : Option String) = some s ∧
      hasSub weixinPat.toList s.toList = true :=
  getWeixinScrape_ok_isSome "x\"weixin://a\"y" (some "weixin://a") rfl

end WechatPaySdk
